import Mathlib

/-!
Verification of the `mcp.go` client facade of grafana/xk6-mcp.

The embedding models the facade operations (`Ping`, `ListTools`, `CallTool`,
`ListResources`, `ReadResource`, `ListPrompts`, `GetPrompt` and the three
`ListAll*` pagination aggregators), the environment handling of the stdio
transport constructor, and the bearer-token decoration of the streaming HTTP
client.  Wall-clock time is modelled as advancing only inside remote session
calls; Go `error` values are modelled as `Except String`; the `Meta` field,
which the Go code carries verbatim and holds constant across page requests,
is not modelled.
-/

set_option linter.unusedVariables false

namespace XK6MCP

/-- A Go `context.Context` as the facade code observes it: either
`context.Background()` (never cancelled) or the caller-supplied cancellable
context bound to the facade at construction, together with whether that
context has been cancelled. -/
inductive GoContext where
  | background
  | cancelable (cancelled : Bool)
deriving DecidableEq, Repr

/-- Whether a context has been cancelled; `context.Background()` never is. -/
def GoContext.isCancelled : GoContext → Bool
  | .background => false
  | .cancelable b => b

/-- Modelled from the spec: the metrics sink (`metrics.K6Metrics.Push`, whose
package is not among the sources here) accepts exactly one
`(operationName, duration, error)` observation per call.  A `Sample` is one
such observation: the operation name, the measured duration, and whether the
Go error passed to the push was non-nil. -/
structure Sample where
  name : String
  duration : Nat
  isError : Bool
deriving DecidableEq, Repr

/-- The outcome of one session-level remote call: the value returned by the
underlying `mcp.ClientSession` method (with `Except.error` standing for a
non-nil Go `error`) and the wall-clock time the call took. -/
structure SessResult (α : Type) where
  value : Except String α
  elapsed : Nat

/-- `err != nil` for an embedded Go error value. -/
def goErrNonNil {α : Type} : Except String α → Bool
  | .error _ => true
  | .ok _ => false

/-- One page of a paginated list result, as the session returns it: the slice
of item pointers (`none` is a nil entry, a hole the server returned) and the
`NextCursor` field (`""` meaning no further pages). -/
structure Page (α : Type) where
  items : List (Option α)
  nextCursor : String

/-- One page request as issued to the session: the context it is issued with
and the `Cursor` field (`none` when the field is left at its zero value,
i.e. omitted from the request). -/
structure PageRequest where
  ctx : GoContext
  cursor : Option String
deriving DecidableEq, Repr

/-- `params := &ListToolsParams{Meta: r.Meta}; if cursor != "" { params.Cursor = cursor }`:
the cursor field actually attached to a page request. -/
def cursorParam (cursor : String) : Option String :=
  if cursor ≠ "" then some cursor else none

/-- The cursor-follow loop shared by `ListAllTools`, `ListAllResources` and
`ListAllPrompts` (the three Go functions are copies of this loop at different
item types).  `fetch` is the session's single-page list call; the Go code
issues every page request with `context.Background()`.  The Go loop has no
iteration bound, so the embedding is fuel-indexed: a `none` result means the
loop has not terminated within `fuel` iterations.  Besides the Go function's
own state — the current `cursor`, the accumulated non-null items and the
elapsed wall-clock time since `start` — the embedding threads the trace of
page requests issued so far, so that theorems can speak about what was sent
to the server.  On success it returns the accumulated items, on a page error
it returns that error with the accumulated items discarded; either way it
also returns the total duration and the full request trace. -/
def listAllLoop {α : Type} (fetch : GoContext → Option String → SessResult (Page α)) :
    Nat → String → List α → Nat → List PageRequest →
    Option (Except String (List α) × Nat × List PageRequest)
  | 0, _, _, _, _ => none
  | fuel + 1, cursor, acc, t, reqs =>
    let params := cursorParam cursor
    let req : PageRequest := ⟨GoContext.background, params⟩
    let call := fetch GoContext.background params
    match call.value with
    | .error e => some (.error e, t + call.elapsed, reqs ++ [req])
    | .ok page =>
      let acc2 := acc ++ page.items.filterMap id
      if page.nextCursor = "" then
        some (.ok acc2, t + call.elapsed, reqs ++ [req])
      else
        listAllLoop fetch fuel page.nextCursor acc2 (t + call.elapsed) (reqs ++ [req])

/-- `Client.ListAllTools`: drives the cursor loop from an empty cursor, pushes
exactly one `ListAllTools` sample tagged with the total duration and whether
the loop ended in an error, and on error returns the wrapped error
(`failed to list tools: ...`) with the accumulated items discarded.  `cctx`
is the facade's bound context `c.ctx`; the loop issues its page requests with
`context.Background()`, not with `cctx`.  The result is the returned value,
the samples pushed, and the trace of page requests issued. -/
def ListAllToolsM {α : Type} (fetch : GoContext → Option String → SessResult (Page α))
    (cctx : GoContext) (fuel : Nat) :
    Option (Except String (List α) × List Sample × List PageRequest) :=
  match listAllLoop fetch fuel "" [] 0 [] with
  | none => none
  | some (r, d, reqs) =>
    let sample : Sample := ⟨"ListAllTools", d, goErrNonNil r⟩
    match r with
    | .error e => some (.error ("failed to list tools: " ++ e), [sample], reqs)
    | .ok items => some (.ok items, [sample], reqs)

/-- `Client.ListAllResources`: same loop as `ListAllTools` at the resource item
type, with the `ListAllResources` metric name and error wrap. -/
def ListAllResourcesM {α : Type} (fetch : GoContext → Option String → SessResult (Page α))
    (cctx : GoContext) (fuel : Nat) :
    Option (Except String (List α) × List Sample × List PageRequest) :=
  match listAllLoop fetch fuel "" [] 0 [] with
  | none => none
  | some (r, d, reqs) =>
    let sample : Sample := ⟨"ListAllResources", d, goErrNonNil r⟩
    match r with
    | .error e => some (.error ("failed to list resources: " ++ e), [sample], reqs)
    | .ok items => some (.ok items, [sample], reqs)

/-- `Client.ListAllPrompts`: same loop as `ListAllTools` at the prompt item
type, with the `ListAllPrompts` metric name and error wrap. -/
def ListAllPromptsM {α : Type} (fetch : GoContext → Option String → SessResult (Page α))
    (cctx : GoContext) (fuel : Nat) :
    Option (Except String (List α) × List Sample × List PageRequest) :=
  match listAllLoop fetch fuel "" [] 0 [] with
  | none => none
  | some (r, d, reqs) =>
    let sample : Sample := ⟨"ListAllPrompts", d, goErrNonNil r⟩
    match r with
    | .error e => some (.error ("failed to list prompts: " ++ e), [sample], reqs)
    | .ok items => some (.ok items, [sample], reqs)

/-- `Client.Ping`: issues the session ping with `context.Background()` and
returns `err == nil`.  No call to `c.metrics.Push` appears in its body, which
the empty sample list records.  `cctx` is the facade's bound context, unused
here. -/
def PingM (sess : GoContext → SessResult Unit) (cctx : GoContext) :
    Bool × List Sample :=
  let call := sess GoContext.background
  (!goErrNonNil call.value, [])

/-- `Client.ListTools`: the single-page call, passed through verbatim with
`context.Background()`.  No call to `c.metrics.Push` appears in its body. -/
def ListToolsM {α : Type} (sess : GoContext → SessResult α) (cctx : GoContext) :
    Except String α × List Sample :=
  ((sess GoContext.background).value, [])

/-- `Client.CallTool`: the only operation that issues its session call with
the facade's bound context `c.ctx`; pushes exactly one `CallTool` sample. -/
def CallToolM {α : Type} (sess : GoContext → SessResult α) (cctx : GoContext) :
    Except String α × List Sample :=
  let call := sess cctx
  (call.value, [⟨"CallTool", call.elapsed, goErrNonNil call.value⟩])

/-- `Client.ListResources`: single call with `context.Background()`; pushes
exactly one `ListResources` sample. -/
def ListResourcesM {α : Type} (sess : GoContext → SessResult α) (cctx : GoContext) :
    Except String α × List Sample :=
  let call := sess GoContext.background
  (call.value, [⟨"ListResources", call.elapsed, goErrNonNil call.value⟩])

/-- `Client.ReadResource`: single call with `context.Background()`; pushes
exactly one `ReadResource` sample. -/
def ReadResourceM {α : Type} (sess : GoContext → SessResult α) (cctx : GoContext) :
    Except String α × List Sample :=
  let call := sess GoContext.background
  (call.value, [⟨"ReadResource", call.elapsed, goErrNonNil call.value⟩])

/-- `Client.ListPrompts`: single call with `context.Background()`; pushes
exactly one `ListPrompts` sample. -/
def ListPromptsM {α : Type} (sess : GoContext → SessResult α) (cctx : GoContext) :
    Except String α × List Sample :=
  let call := sess GoContext.background
  (call.value, [⟨"ListPrompts", call.elapsed, goErrNonNil call.value⟩])

/-- `Client.GetPrompt`: single call with `context.Background()`; pushes
exactly one `GetPrompt` sample. -/
def GetPromptM {α : Type} (sess : GoContext → SessResult α) (cctx : GoContext) :
    Except String α × List Sample :=
  let call := sess GoContext.background
  (call.value, [⟨"GetPrompt", call.elapsed, goErrNonNil call.value⟩])

/-- `AuthConfig` from `mcp.go`. -/
structure AuthConfig where
  bearerToken : String

/-- `ClientConfig` from `mcp.go`.  The Go `Env map[string]string` is embedded
as an association list, since Go map iteration order is unspecified and no
claim depends on entry order. -/
structure ClientConfig where
  path : String
  args : List String
  env : List (String × String)
  debug : Bool
  baseURL : String
  auth : AuthConfig

/-- The environment-override loop of `newStdioClient`:
`cmd := exec.Command(...)` leaves `cmd.Env` nil, and the loop appends
`"k=v"` entries to it.  A nil slice is `none`; appending to nil produces a
slice holding just the appended entries. -/
def stdioCmdEnv (cfg : ClientConfig) : Option (List String) :=
  cfg.env.foldl (fun env kv => some (env.getD [] ++ [kv.1 ++ "=" ++ kv.2])) none

/-- The documented `os/exec` semantics the code relies on: if `Cmd.Env` is
nil the child inherits the parent process environment, otherwise the child
receives exactly the entries of `Cmd.Env`. -/
def childProcessEnv (parentEnv : List String) (cmdEnv : Option (List String)) : List String :=
  match cmdEnv with
  | none => parentEnv
  | some env => env

/-- The environment the subprocess launched by `newStdioClient` receives. -/
def stdioChildEnv (parentEnv : List String) (cfg : ClientConfig) : List String :=
  childProcessEnv parentEnv (stdioCmdEnv cfg)

/-- The shared TLS configuration of the k6 VU state, reduced to opaque
contents plus the protocol-negotiation list the code overwrites. -/
structure TLSConfig where
  data : String
  nextProtos : List String
deriving DecidableEq, Repr

/-- The parts of the k6 VU state `newk6HTTPClient` reads. -/
structure VUState where
  tlsConfig : Option TLSConfig
  noConnectionReuse : Bool
  noVUConnectionReuse : Bool
  hasDialer : Bool
deriving DecidableEq, Repr

/-- The `http.Transport` `newk6HTTPClient` assembles. -/
structure HTTPTransport where
  proxyFromEnvironment : Bool
  tlsClientConfig : Option TLSConfig
  disableKeepAlives : Bool
  usesStateDialer : Bool
deriving DecidableEq, Repr

/-- An `*http.Client` as this code produces it: either the plain client over
the k6-configured transport, or that client wrapped by `oauth2.NewClient`
with a static token source. -/
inductive GoHTTPClient where
  | plain (transport : HTTPTransport)
  | oauth2Client (token : String) (underlying : GoHTTPClient)
deriving DecidableEq, Repr

/-- Sending one request through a client: returns the request headers as
delivered on the wire together with the transport that carries them.
`oauth2.NewClient` with a static token source behaves, per its documented
contract, as a client whose transport adds an `Authorization: Bearer <token>`
header to each request and delegates the actual round trip to the client
placed in the context (here the original k6-configured client). -/
def GoHTTPClient.send : GoHTTPClient → List (String × String) → List (String × String) × HTTPTransport
  | .plain transport, headers => (headers, transport)
  | .oauth2Client token underlying, headers =>
    GoHTTPClient.send underlying (headers ++ [("Authorization", "Bearer " ++ token)])

/-- The transport-construction prefix of `newk6HTTPClient`: clone the state's
TLS config (pinning negotiation to http/1.1), inherit proxy settings from the
process environment, disable keep-alives when either no-connection-reuse
option is set, and install the state's dialer when present.  (The Go code
checks `m.vu.State() != nil` before the first two reads but dereferences the
state unconditionally for the dialer; the theorems only instantiate a
present state.) -/
def k6Transport (state : Option VUState) : HTTPTransport :=
  let tlsConfig : Option TLSConfig :=
    match state with
    | some st =>
      match st.tlsConfig with
      | some t => some { t with nextProtos := ["http/1.1"] }
      | none => none
    | none => none
  let tr1 : HTTPTransport :=
    { proxyFromEnvironment := true, tlsClientConfig := tlsConfig,
      disableKeepAlives := false, usesStateDialer := false }
  let tr2 : HTTPTransport :=
    match state with
    | some st => { tr1 with disableKeepAlives := st.noConnectionReuse || st.noVUConnectionReuse }
    | none => tr1
  match state with
  | some st => if st.hasDialer then { tr2 with usesStateDialer := true } else tr2
  | none => tr2

/-- `newk6HTTPClient`: builds the plain client over `k6Transport` and, only
when the configured bearer token is non-empty, replaces it by the
`oauth2.NewClient` wrapper seeded with that client and a static token source
for the token. -/
def newk6HTTPClient (state : Option VUState) (cfg : ClientConfig) : GoHTTPClient :=
  let httpClient := GoHTTPClient.plain (k6Transport state)
  if cfg.auth.bearerToken ≠ "" then
    GoHTTPClient.oauth2Client cfg.auth.bearerToken httpClient
  else
    httpClient

/-- The shape of a page-request trace produced from starting cursor `cursor`:
the first request carries exactly `cursorParam cursor`, and each further
request exists only because the previous fetch returned a page with a
non-empty `nextCursor`, which becomes the next request's cursor value. -/
def reqChain {α : Type} (fetch : GoContext → Option String → SessResult (Page α)) :
    String → List PageRequest → Prop
  | _, [] => True
  | cursor, rq :: rest =>
    rq = ⟨GoContext.background, cursorParam cursor⟩ ∧
    (rest = [] ∨
      ∃ page, (fetch GoContext.background (cursorParam cursor)).value = Except.ok page ∧
        page.nextCursor ≠ "" ∧ reqChain fetch page.nextCursor rest)

/-- A concrete three-page server: the cursorless first request yields items
1 and 2 with cursor A, cursor A yields item 3 with cursor B, and any other
cursor yields item 4 with no further pages. -/
def c2Fetch : GoContext → Option String → SessResult (Page Nat) :=
  fun _ c =>
    match c with
    | none => ⟨Except.ok ⟨[some 1, some 2], "A"⟩, 1⟩
    | some "A" => ⟨Except.ok ⟨[some 3], "B"⟩, 1⟩
    | some _ => ⟨Except.ok ⟨[some 4], ""⟩, 1⟩

/-- A concrete server that serves one page successfully and then fails. -/
def c3Fetch : GoContext → Option String → SessResult (Page Nat) :=
  fun _ c =>
    match c with
    | none => ⟨Except.ok ⟨[some 1], "A"⟩, 1⟩
    | some _ => ⟨Except.error "boom", 2⟩

/-- A concrete session honouring cancellation: any call carrying a cancelled
context fails with the cancellation error; on the background context it
serves two pages. -/
def c4Fetch : GoContext → Option String → SessResult (Page Nat) :=
  fun ctx c =>
    if ctx.isCancelled then ⟨Except.error "context canceled", 0⟩
    else
      match c with
      | none => ⟨Except.ok ⟨[some 1], "next"⟩, 1⟩
      | some _ => ⟨Except.ok ⟨[some 2], ""⟩, 1⟩

/-- A concrete single-call session honouring cancellation. -/
def c4Sess : GoContext → SessResult Nat :=
  fun ctx =>
    if ctx.isCancelled then ⟨Except.error "context canceled", 0⟩
    else ⟨Except.ok 1, 1⟩

/-- A concrete server answering every request with one page holding an item,
a null hole, and another item, and no further pages. -/
def c9Fetch : GoContext → Option String → SessResult (Page Nat) :=
  fun _ _ => ⟨Except.ok ⟨[some 10, none, some 20], ""⟩, 2⟩

/-- A concrete server answering every request with an empty final page. -/
def c10Fetch : GoContext → Option String → SessResult (Page Nat) :=
  fun _ _ => ⟨Except.ok ⟨[], ""⟩, 1⟩

/-- A concrete server that always returns a further non-empty cursor. -/
def endlessFetch : GoContext → Option String → SessResult (Page Nat) :=
  fun _ _ => ⟨Except.ok ⟨[], "again"⟩, 1⟩

/-- The cursor field attached to a request is never `some ""`: an empty
cursor string means the field is omitted. -/
theorem cursorParam_ne (cursor : String) : cursorParam cursor ≠ some "" := by
  unfold cursorParam
  split
  · simp_all
  · simp

/-- The empty starting cursor sends no cursor field. -/
theorem cursorParam_empty : cursorParam "" = none := by
  simp [cursorParam]

/-- Unrolling one loop iteration whose page fetch fails: the loop stops at
once, returning that error, the duration so far plus this call's, and the
trace extended by this one request — the accumulated items do not appear in
the result. -/
theorem listAllLoop_step_error {α : Type} (fetch : GoContext → Option String → SessResult (Page α))
    (fuel : Nat) (cursor : String) (acc : List α) (t : Nat) (reqs : List PageRequest)
    (e : String) (d : Nat)
    (h : fetch GoContext.background (cursorParam cursor) = ⟨Except.error e, d⟩) :
    listAllLoop fetch (fuel + 1) cursor acc t reqs =
      some (Except.error e, t + d, reqs ++ [⟨GoContext.background, cursorParam cursor⟩]) := by
  simp only [listAllLoop, h]

/-- Unrolling one loop iteration whose page fetch succeeds with an empty
`nextCursor`: the loop terminates normally with the accumulated items
extended by this page's non-null items. -/
theorem listAllLoop_step_done {α : Type} (fetch : GoContext → Option String → SessResult (Page α))
    (fuel : Nat) (cursor : String) (acc : List α) (t : Nat) (reqs : List PageRequest)
    (page : Page α) (d : Nat)
    (h : fetch GoContext.background (cursorParam cursor) = ⟨Except.ok page, d⟩)
    (hnc : page.nextCursor = "") :
    listAllLoop fetch (fuel + 1) cursor acc t reqs =
      some (Except.ok (acc ++ page.items.filterMap id), t + d,
        reqs ++ [⟨GoContext.background, cursorParam cursor⟩]) := by
  simp only [listAllLoop, h]
  rw [if_pos hnc]

/-- Unrolling one loop iteration whose page fetch succeeds with a non-empty
`nextCursor`: the loop continues at that cursor. -/
theorem listAllLoop_step_ok {α : Type} (fetch : GoContext → Option String → SessResult (Page α))
    (fuel : Nat) (cursor : String) (acc : List α) (t : Nat) (reqs : List PageRequest)
    (page : Page α) (d : Nat)
    (h : fetch GoContext.background (cursorParam cursor) = ⟨Except.ok page, d⟩)
    (hnc : page.nextCursor ≠ "") :
    listAllLoop fetch (fuel + 1) cursor acc t reqs =
      listAllLoop fetch fuel page.nextCursor (acc ++ page.items.filterMap id) (t + d)
        (reqs ++ [⟨GoContext.background, cursorParam cursor⟩]) := by
  simp only [listAllLoop, h]
  rw [if_neg hnc]

/-- A terminating loop run appends a non-empty batch of requests to the
incoming trace; the first appended request carries the starting cursor, and
the returned duration is the incoming time plus the elapsed time of exactly
the appended requests. -/
theorem listAllLoop_trace {α : Type} (fetch : GoContext → Option String → SessResult (Page α)) :
    ∀ (fuel : Nat) (cursor : String) (acc : List α) (t : Nat) (reqs : List PageRequest)
      (r : Except String (List α)) (d : Nat) (reqs2 : List PageRequest),
      listAllLoop fetch fuel cursor acc t reqs = some (r, d, reqs2) →
      ∃ tail, reqs2 = reqs ++ tail ∧
        tail.head? = some ⟨GoContext.background, cursorParam cursor⟩ ∧
        d = t + (tail.map fun rq => (fetch rq.ctx rq.cursor).elapsed).sum := by
  intro fuel
  induction fuel with
  | zero =>
    intro cursor acc t reqs r d reqs2 h
    simp [listAllLoop] at h
  | succ n ih =>
    intro cursor acc t reqs r d reqs2 h
    simp only [listAllLoop] at h
    cases hv : (fetch GoContext.background (cursorParam cursor)).value with
    | error e =>
      simp only [hv] at h
      simp only [Option.some.injEq, Prod.mk.injEq] at h
      obtain ⟨h1, h2, h3⟩ := h
      refine ⟨[⟨GoContext.background, cursorParam cursor⟩], h3.symm, rfl, ?_⟩
      simp [← h2]
    | ok page =>
      simp only [hv] at h
      by_cases hnc : page.nextCursor = ""
      · rw [if_pos hnc] at h
        simp only [Option.some.injEq, Prod.mk.injEq] at h
        obtain ⟨h1, h2, h3⟩ := h
        refine ⟨[⟨GoContext.background, cursorParam cursor⟩], h3.symm, rfl, ?_⟩
        simp [← h2]
      · rw [if_neg hnc] at h
        obtain ⟨tail, ht, hh, hd⟩ := ih page.nextCursor _ _ _ r d reqs2 h
        refine ⟨⟨GoContext.background, cursorParam cursor⟩ :: tail, by simp [ht], rfl, ?_⟩
        simp only [List.map_cons, List.sum_cons]
        simp only [hd]
        omega

/-- Every request a terminating loop run adds to the trace is issued with the
background context and never carries `some ""` as its cursor field. -/
theorem listAllLoop_reqs_inv {α : Type} (fetch : GoContext → Option String → SessResult (Page α)) :
    ∀ (fuel : Nat) (cursor : String) (acc : List α) (t : Nat) (reqs : List PageRequest)
      (r : Except String (List α)) (d : Nat) (reqs2 : List PageRequest),
      listAllLoop fetch fuel cursor acc t reqs = some (r, d, reqs2) →
      (∀ rq ∈ reqs, rq.ctx = GoContext.background ∧ rq.cursor ≠ some "") →
      ∀ rq ∈ reqs2, rq.ctx = GoContext.background ∧ rq.cursor ≠ some "" := by
  intro fuel
  induction fuel with
  | zero =>
    intro cursor acc t reqs r d reqs2 h
    simp [listAllLoop] at h
  | succ n ih =>
    intro cursor acc t reqs r d reqs2 h hreqs
    have hstep : ∀ rq ∈ reqs ++ [(⟨GoContext.background, cursorParam cursor⟩ : PageRequest)],
        rq.ctx = GoContext.background ∧ rq.cursor ≠ some "" := by
      intro rq hrq
      rcases List.mem_append.mp hrq with hmem | hmem
      · exact hreqs rq hmem
      · rcases List.mem_singleton.mp hmem with rfl
        exact ⟨rfl, cursorParam_ne cursor⟩
    simp only [listAllLoop] at h
    cases hv : (fetch GoContext.background (cursorParam cursor)).value with
    | error e =>
      simp only [hv] at h
      simp only [Option.some.injEq, Prod.mk.injEq] at h
      obtain ⟨h1, h2, h3⟩ := h
      rw [← h3]
      exact hstep
    | ok page =>
      simp only [hv] at h
      by_cases hnc : page.nextCursor = ""
      · rw [if_pos hnc] at h
        simp only [Option.some.injEq, Prod.mk.injEq] at h
        obtain ⟨h1, h2, h3⟩ := h
        rw [← h3]
        exact hstep
      · rw [if_neg hnc] at h
        exact ih page.nextCursor _ _ _ r d reqs2 h hstep

/-- A terminating loop run ends on exactly one of two events: the final page
request returned an error (which becomes the loop's error result) or it
returned a page whose `nextCursor` is the empty string. -/
theorem listAllLoop_last {α : Type} (fetch : GoContext → Option String → SessResult (Page α)) :
    ∀ (fuel : Nat) (cursor : String) (acc : List α) (t : Nat) (reqs : List PageRequest)
      (r : Except String (List α)) (d : Nat) (reqs2 : List PageRequest),
      listAllLoop fetch fuel cursor acc t reqs = some (r, d, reqs2) →
      ∃ rq, reqs2.getLast? = some rq ∧
        ((∃ e, (fetch rq.ctx rq.cursor).value = Except.error e ∧ r = Except.error e) ∨
         (∃ page, (fetch rq.ctx rq.cursor).value = Except.ok page ∧ page.nextCursor = "")) := by
  intro fuel
  induction fuel with
  | zero =>
    intro cursor acc t reqs r d reqs2 h
    simp [listAllLoop] at h
  | succ n ih =>
    intro cursor acc t reqs r d reqs2 h
    simp only [listAllLoop] at h
    cases hv : (fetch GoContext.background (cursorParam cursor)).value with
    | error e =>
      simp only [hv] at h
      simp only [Option.some.injEq, Prod.mk.injEq] at h
      obtain ⟨h1, h2, h3⟩ := h
      refine ⟨⟨GoContext.background, cursorParam cursor⟩, ?_, Or.inl ⟨e, hv, h1.symm⟩⟩
      rw [← h3]
      exact List.getLast?_concat reqs
    | ok page =>
      simp only [hv] at h
      by_cases hnc : page.nextCursor = ""
      · rw [if_pos hnc] at h
        simp only [Option.some.injEq, Prod.mk.injEq] at h
        obtain ⟨h1, h2, h3⟩ := h
        refine ⟨⟨GoContext.background, cursorParam cursor⟩, ?_, Or.inr ⟨page, hv, hnc⟩⟩
        rw [← h3]
        exact List.getLast?_concat reqs
      · rw [if_neg hnc] at h
        exact ih page.nextCursor _ _ _ r d reqs2 h

/-- Against a server whose every page comes back successfully with a
non-empty `nextCursor`, the loop never terminates: it exhausts any amount of
fuel. -/
theorem listAllLoop_endless {α : Type} (fetch : GoContext → Option String → SessResult (Page α))
    (H : ∀ p, ∃ page, (fetch GoContext.background p).value = Except.ok page ∧
      page.nextCursor ≠ "") :
    ∀ (fuel : Nat) (cursor : String) (acc : List α) (t : Nat) (reqs : List PageRequest),
      listAllLoop fetch fuel cursor acc t reqs = none := by
  intro fuel
  induction fuel with
  | zero =>
    intro cursor acc t reqs
    rfl
  | succ n ih =>
    intro cursor acc t reqs
    obtain ⟨page, hp, hnc⟩ := H (cursorParam cursor)
    simp only [listAllLoop, hp]
    rw [if_neg hnc]
    exact ih page.nextCursor _ _ _

/-- The requests a terminating loop run appends form a `reqChain` from the
starting cursor: cursors are attached to later requests only because the
previous page's `nextCursor` was non-empty. -/
theorem listAllLoop_chain {α : Type} (fetch : GoContext → Option String → SessResult (Page α)) :
    ∀ (fuel : Nat) (cursor : String) (acc : List α) (t : Nat) (reqs : List PageRequest)
      (r : Except String (List α)) (d : Nat) (reqs2 : List PageRequest),
      listAllLoop fetch fuel cursor acc t reqs = some (r, d, reqs2) →
      ∃ tail, reqs2 = reqs ++ tail ∧ reqChain fetch cursor tail := by
  intro fuel
  induction fuel with
  | zero =>
    intro cursor acc t reqs r d reqs2 h
    simp [listAllLoop] at h
  | succ n ih =>
    intro cursor acc t reqs r d reqs2 h
    simp only [listAllLoop] at h
    cases hv : (fetch GoContext.background (cursorParam cursor)).value with
    | error e =>
      simp only [hv] at h
      simp only [Option.some.injEq, Prod.mk.injEq] at h
      obtain ⟨h1, h2, h3⟩ := h
      exact ⟨[⟨GoContext.background, cursorParam cursor⟩], h3.symm, rfl, Or.inl rfl⟩
    | ok page =>
      simp only [hv] at h
      by_cases hnc : page.nextCursor = ""
      · rw [if_pos hnc] at h
        simp only [Option.some.injEq, Prod.mk.injEq] at h
        obtain ⟨h1, h2, h3⟩ := h
        exact ⟨[⟨GoContext.background, cursorParam cursor⟩], h3.symm, rfl, Or.inl rfl⟩
      · rw [if_neg hnc] at h
        obtain ⟨tail, ht, hchain⟩ := ih page.nextCursor _ _ _ r d reqs2 h
        refine ⟨⟨GoContext.background, cursorParam cursor⟩ :: tail, by simp [ht], rfl, ?_⟩
        exact Or.inr ⟨page, hv, hnc, hchain⟩

/-- What every terminating `ListAllTools` call guarantees: exactly one
pushed sample, named `ListAllTools`, tagged with the summed elapsed time of
the issued page requests and with whether the result is an error; a first
page request with no cursor field; every page request on the background
context and never carrying an empty-string cursor; and the request trace
forming a `reqChain` from the empty starting cursor. -/
theorem ListAllToolsM_inv {α : Type} (fetch : GoContext → Option String → SessResult (Page α))
    (cctx : GoContext) (fuel : Nat)
    (r : Except String (List α)) (s : List Sample) (reqs : List PageRequest)
    (h : ListAllToolsM fetch cctx fuel = some (r, s, reqs)) :
    s = [⟨"ListAllTools", (reqs.map fun rq => (fetch rq.ctx rq.cursor).elapsed).sum,
        goErrNonNil r⟩] ∧
    reqs.head? = some ⟨GoContext.background, none⟩ ∧
    (∀ rq ∈ reqs, rq.ctx = GoContext.background ∧ rq.cursor ≠ some "") ∧
    reqChain fetch "" reqs := by
  cases hl : listAllLoop fetch fuel "" [] 0 [] with
  | none =>
    rw [ListAllToolsM, hl] at h
    exact absurd h (by simp)
  | some trip =>
    obtain ⟨r0, d0, reqs0⟩ := trip
    obtain ⟨tail, htl, hhd, hdur⟩ := listAllLoop_trace fetch fuel "" [] 0 [] r0 d0 reqs0 hl
    obtain ⟨tail2, htl2, hchain⟩ := listAllLoop_chain fetch fuel "" [] 0 [] r0 d0 reqs0 hl
    have hinv := listAllLoop_reqs_inv fetch fuel "" [] 0 [] r0 d0 reqs0 hl
      (by intro rq hrq; simp at hrq)
    rw [List.nil_append] at htl htl2
    rw [← htl] at hhd hdur
    rw [← htl2] at hchain
    cases r0 with
    | error e =>
      rw [ListAllToolsM, hl] at h
      simp only [goErrNonNil, Option.some.injEq, Prod.mk.injEq] at h
      obtain ⟨h1, h2, h3⟩ := h
      subst h1 h2 h3
      refine ⟨?_, ?_, hinv, hchain⟩
      · simp [goErrNonNil, hdur]
      · rw [hhd, cursorParam_empty]
    | ok items =>
      rw [ListAllToolsM, hl] at h
      simp only [goErrNonNil, Option.some.injEq, Prod.mk.injEq] at h
      obtain ⟨h1, h2, h3⟩ := h
      subst h1 h2 h3
      refine ⟨?_, ?_, hinv, hchain⟩
      · simp [goErrNonNil, hdur]
      · rw [hhd, cursorParam_empty]

/-- The `ListAllTools` guarantees of `ListAllToolsM_inv`, for
`ListAllResources`. -/
theorem ListAllResourcesM_inv {α : Type} (fetch : GoContext → Option String → SessResult (Page α))
    (cctx : GoContext) (fuel : Nat)
    (r : Except String (List α)) (s : List Sample) (reqs : List PageRequest)
    (h : ListAllResourcesM fetch cctx fuel = some (r, s, reqs)) :
    s = [⟨"ListAllResources", (reqs.map fun rq => (fetch rq.ctx rq.cursor).elapsed).sum,
        goErrNonNil r⟩] ∧
    reqs.head? = some ⟨GoContext.background, none⟩ ∧
    (∀ rq ∈ reqs, rq.ctx = GoContext.background ∧ rq.cursor ≠ some "") ∧
    reqChain fetch "" reqs := by
  cases hl : listAllLoop fetch fuel "" [] 0 [] with
  | none =>
    rw [ListAllResourcesM, hl] at h
    exact absurd h (by simp)
  | some trip =>
    obtain ⟨r0, d0, reqs0⟩ := trip
    obtain ⟨tail, htl, hhd, hdur⟩ := listAllLoop_trace fetch fuel "" [] 0 [] r0 d0 reqs0 hl
    obtain ⟨tail2, htl2, hchain⟩ := listAllLoop_chain fetch fuel "" [] 0 [] r0 d0 reqs0 hl
    have hinv := listAllLoop_reqs_inv fetch fuel "" [] 0 [] r0 d0 reqs0 hl
      (by intro rq hrq; simp at hrq)
    rw [List.nil_append] at htl htl2
    rw [← htl] at hhd hdur
    rw [← htl2] at hchain
    cases r0 with
    | error e =>
      rw [ListAllResourcesM, hl] at h
      simp only [goErrNonNil, Option.some.injEq, Prod.mk.injEq] at h
      obtain ⟨h1, h2, h3⟩ := h
      subst h1 h2 h3
      refine ⟨?_, ?_, hinv, hchain⟩
      · simp [goErrNonNil, hdur]
      · rw [hhd, cursorParam_empty]
    | ok items =>
      rw [ListAllResourcesM, hl] at h
      simp only [goErrNonNil, Option.some.injEq, Prod.mk.injEq] at h
      obtain ⟨h1, h2, h3⟩ := h
      subst h1 h2 h3
      refine ⟨?_, ?_, hinv, hchain⟩
      · simp [goErrNonNil, hdur]
      · rw [hhd, cursorParam_empty]

/-- The `ListAllTools` guarantees of `ListAllToolsM_inv`, for
`ListAllPrompts`. -/
theorem ListAllPromptsM_inv {α : Type} (fetch : GoContext → Option String → SessResult (Page α))
    (cctx : GoContext) (fuel : Nat)
    (r : Except String (List α)) (s : List Sample) (reqs : List PageRequest)
    (h : ListAllPromptsM fetch cctx fuel = some (r, s, reqs)) :
    s = [⟨"ListAllPrompts", (reqs.map fun rq => (fetch rq.ctx rq.cursor).elapsed).sum,
        goErrNonNil r⟩] ∧
    reqs.head? = some ⟨GoContext.background, none⟩ ∧
    (∀ rq ∈ reqs, rq.ctx = GoContext.background ∧ rq.cursor ≠ some "") ∧
    reqChain fetch "" reqs := by
  cases hl : listAllLoop fetch fuel "" [] 0 [] with
  | none =>
    rw [ListAllPromptsM, hl] at h
    exact absurd h (by simp)
  | some trip =>
    obtain ⟨r0, d0, reqs0⟩ := trip
    obtain ⟨tail, htl, hhd, hdur⟩ := listAllLoop_trace fetch fuel "" [] 0 [] r0 d0 reqs0 hl
    obtain ⟨tail2, htl2, hchain⟩ := listAllLoop_chain fetch fuel "" [] 0 [] r0 d0 reqs0 hl
    have hinv := listAllLoop_reqs_inv fetch fuel "" [] 0 [] r0 d0 reqs0 hl
      (by intro rq hrq; simp at hrq)
    rw [List.nil_append] at htl htl2
    rw [← htl] at hhd hdur
    rw [← htl2] at hchain
    cases r0 with
    | error e =>
      rw [ListAllPromptsM, hl] at h
      simp only [goErrNonNil, Option.some.injEq, Prod.mk.injEq] at h
      obtain ⟨h1, h2, h3⟩ := h
      subst h1 h2 h3
      refine ⟨?_, ?_, hinv, hchain⟩
      · simp [goErrNonNil, hdur]
      · rw [hhd, cursorParam_empty]
    | ok items =>
      rw [ListAllPromptsM, hl] at h
      simp only [goErrNonNil, Option.some.injEq, Prod.mk.injEq] at h
      obtain ⟨h1, h2, h3⟩ := h
      subst h1 h2 h3
      refine ⟨?_, ?_, hinv, hchain⟩
      · simp [goErrNonNil, hdur]
      · rw [hhd, cursorParam_empty]

/-- Skipping nulls over a page of non-null items returns the items. -/
theorem filterMap_id_map_some {α : Type} (l : List α) : (l.map some).filterMap id = l := by
  induction l with
  | nil => rfl
  | cons a l ih => simp [ih]

/-- C2: against any server returning page `p1` with non-empty cursor `c1`,
page `p2` with non-empty cursor `c2`, and page `p3` with empty cursor,
`ListAllTools` issues exactly 3 page requests — the first with no cursor
field, the second with cursor `c1`, the third with cursor `c2` — and returns
`p1 ++ p2 ++ p3` in exactly that order, with no item deduplicated or
reordered, for any remaining fuel. -/
theorem C2_pagination_roundtrip {α : Type}
    (fetch : GoContext → Option String → SessResult (Page α)) (cctx : GoContext)
    (p1 p2 p3 : List α) (c1 c2 : String) (d1 d2 d3 : Nat)
    (hc1 : c1 ≠ "") (hc2 : c2 ≠ "")
    (h1 : fetch GoContext.background none = ⟨Except.ok ⟨p1.map some, c1⟩, d1⟩)
    (h2 : fetch GoContext.background (some c1) = ⟨Except.ok ⟨p2.map some, c2⟩, d2⟩)
    (h3 : fetch GoContext.background (some c2) = ⟨Except.ok ⟨p3.map some, ""⟩, d3⟩)
    (n : Nat) :
    ListAllToolsM fetch cctx (n + 3) =
      some (Except.ok (p1 ++ p2 ++ p3),
        [⟨"ListAllTools", d1 + d2 + d3, false⟩],
        [⟨GoContext.background, none⟩, ⟨GoContext.background, some c1⟩,
         ⟨GoContext.background, some c2⟩]) := by
  have e1 : cursorParam c1 = some c1 := by simp [cursorParam, hc1]
  have e2 : cursorParam c2 = some c2 := by simp [cursorParam, hc2]
  have s1 : listAllLoop fetch (n + 2 + 1) "" [] 0 [] =
      listAllLoop fetch (n + 2) c1 p1 d1 [⟨GoContext.background, none⟩] := by
    rw [listAllLoop_step_ok fetch (n + 2) "" [] 0 [] ⟨p1.map some, c1⟩ d1
      (by rw [cursorParam_empty]; exact h1) hc1]
    simp [filterMap_id_map_some, cursorParam_empty]
  have s2 : listAllLoop fetch (n + 2) c1 p1 d1 [⟨GoContext.background, none⟩] =
      listAllLoop fetch (n + 1) c2 (p1 ++ p2) (d1 + d2)
        [⟨GoContext.background, none⟩, ⟨GoContext.background, some c1⟩] := by
    show listAllLoop fetch (n + 1 + 1) c1 p1 d1 [⟨GoContext.background, none⟩] = _
    rw [listAllLoop_step_ok fetch (n + 1) c1 p1 d1 [⟨GoContext.background, none⟩]
      ⟨p2.map some, c2⟩ d2 (by rw [e1]; exact h2) hc2]
    simp [filterMap_id_map_some, e1]
  have s3 : listAllLoop fetch (n + 1) c2 (p1 ++ p2) (d1 + d2)
        [⟨GoContext.background, none⟩, ⟨GoContext.background, some c1⟩] =
      some (Except.ok (p1 ++ p2 ++ p3), d1 + d2 + d3,
        [⟨GoContext.background, none⟩, ⟨GoContext.background, some c1⟩,
         ⟨GoContext.background, some c2⟩]) := by
    rw [listAllLoop_step_done fetch n c2 (p1 ++ p2) (d1 + d2)
      [⟨GoContext.background, none⟩, ⟨GoContext.background, some c1⟩]
      ⟨p3.map some, ""⟩ d3 (by rw [e2]; exact h3) rfl]
    simp [filterMap_id_map_some, e2]
  have hf : n + 3 = n + 2 + 1 := rfl
  have hloop : listAllLoop fetch (n + 3) "" [] 0 [] =
      some (Except.ok (p1 ++ p2 ++ p3), d1 + d2 + d3,
        [⟨GoContext.background, none⟩, ⟨GoContext.background, some c1⟩,
         ⟨GoContext.background, some c2⟩]) := by
    rw [hf, s1, s2, s3]
  rw [ListAllToolsM, hloop]
  rfl

/-- C2 witness: the three-page server `c2Fetch` aggregates to `[1, 2, 3, 4]`
via exactly the requests (no cursor), (cursor A), (cursor B). -/
theorem C2_pagination_roundtrip_witness :
    ListAllToolsM c2Fetch GoContext.background 3 =
      some (Except.ok [1, 2, 3, 4], [⟨"ListAllTools", 3, false⟩],
        [⟨GoContext.background, none⟩, ⟨GoContext.background, some "A"⟩,
         ⟨GoContext.background, some "B"⟩]) := by
  have h := C2_pagination_roundtrip c2Fetch GoContext.background [1, 2] [3] [4] "A" "B" 1 1 1
    (by decide) (by decide) rfl rfl rfl 0
  simpa using h

/-- C3: whenever a page fetch inside the aggregation loop fails, the loop
stops with exactly that error and a result in which the items accumulated so
far do not occur — the outcome is the same for any accumulated items — and
`ListAllTools` then returns the wrapped error (with the `true` error flag on
its single sample) and no item sequence. -/
theorem C3_aggregation_error_discards {α : Type}
    (fetch : GoContext → Option String → SessResult (Page α)) (cctx : GoContext)
    (cursor : String) (acc acc2 : List α) (t : Nat) (reqs : List PageRequest)
    (e : String) (d : Nat) (fuel : Nat)
    (hfail : fetch GoContext.background (cursorParam cursor) = ⟨Except.error e, d⟩) :
    listAllLoop fetch (fuel + 1) cursor acc t reqs =
      some (Except.error e, t + d, reqs ++ [⟨GoContext.background, cursorParam cursor⟩]) ∧
    listAllLoop fetch (fuel + 1) cursor acc t reqs =
      listAllLoop fetch (fuel + 1) cursor acc2 t reqs ∧
    ∀ (fuel2 : Nat) (e0 : String) (d0 : Nat) (reqs0 : List PageRequest),
      listAllLoop fetch fuel2 "" [] 0 [] = some (Except.error e0, d0, reqs0) →
      ListAllToolsM fetch cctx fuel2 =
        some (Except.error ("failed to list tools: " ++ e0),
          [⟨"ListAllTools", d0, true⟩], reqs0) := by
  refine ⟨listAllLoop_step_error fetch fuel cursor acc t reqs e d hfail, ?_, ?_⟩
  · rw [listAllLoop_step_error fetch fuel cursor acc t reqs e d hfail,
      listAllLoop_step_error fetch fuel cursor acc2 t reqs e d hfail]
  · intro fuel2 e0 d0 reqs0 hl
    rw [ListAllToolsM, hl]
    rfl

/-- C3 witness: against `c3Fetch` (page 1 succeeds, page 2 fails),
`ListAllTools` returns the wrapped error with no items — page 1's item does
not appear — and the failing loop's result is the same whether the
accumulator holds page 1's items or nothing. -/
theorem C3_aggregation_error_discards_witness :
    ListAllToolsM c3Fetch GoContext.background 2 =
      some (Except.error "failed to list tools: boom", [⟨"ListAllTools", 3, true⟩],
        [⟨GoContext.background, none⟩, ⟨GoContext.background, some "A"⟩]) ∧
    listAllLoop c3Fetch 1 "A" [9, 9, 9] 1 [⟨GoContext.background, none⟩] =
      listAllLoop c3Fetch 1 "A" [] 1 [⟨GoContext.background, none⟩] := by
  have h := C3_aggregation_error_discards c3Fetch GoContext.background "A" [9, 9, 9] [] 1
    [⟨GoContext.background, none⟩] "boom" 2 0 rfl
  exact ⟨h.2.2 2 "boom" 3
    [⟨GoContext.background, none⟩, ⟨GoContext.background, some "A"⟩] rfl, h.2.1⟩

/-- C9: a successful page `[item, null, item2]` contributes exactly
`[item, item2]`, length 2: the null hole is silently skipped, not an error,
and the non-null items keep their order. -/
theorem C9_null_skip {α : Type}
    (fetch : GoContext → Option String → SessResult (Page α)) (cctx : GoContext)
    (a b : α) (d : Nat) (fuel : Nat)
    (h1 : fetch GoContext.background none = ⟨Except.ok ⟨[some a, none, some b], ""⟩, d⟩) :
    ListAllToolsM fetch cctx (fuel + 1) =
      some (Except.ok [a, b], [⟨"ListAllTools", d, false⟩],
        [⟨GoContext.background, none⟩]) ∧
    [a, b].length = 2 := by
  refine ⟨?_, rfl⟩
  have hloop := listAllLoop_step_done fetch fuel "" [] 0 [] ⟨[some a, none, some b], ""⟩ d
    (by rw [cursorParam_empty]; exact h1) rfl
  rw [ListAllToolsM, hloop]
  simp [goErrNonNil, cursorParam_empty]

/-- C9 witness: `c9Fetch` serves `[some 10, none, some 20]`; the aggregated
result is `[10, 20]` of length 2. -/
theorem C9_null_skip_witness :
    ListAllToolsM c9Fetch GoContext.background 1 =
      some (Except.ok [10, 20], [⟨"ListAllTools", 2, false⟩],
        [⟨GoContext.background, none⟩]) ∧
    ([10, 20] : List Nat).length = 2 := by
  have h := C9_null_skip c9Fetch GoContext.background 10 20 2 0 rfl
  exact ⟨h.1, h.2⟩

/-- C10: when the first page fetch succeeds with an empty `nextCursor`, the
aggregation (`ListAllTools` and likewise `ListAllResources`) issues exactly
one page request (with no cursor field) and returns success with exactly
that page's non-null items; in particular a page with zero items yields a
successful empty sequence, never an error. -/
theorem C10_single_page {α : Type}
    (fetchT fetchR : GoContext → Option String → SessResult (Page α)) (cctx : GoContext)
    (pageT pageR : Page α) (dT dR : Nat) (fuel : Nat)
    (hT : fetchT GoContext.background none = ⟨Except.ok pageT, dT⟩)
    (hcT : pageT.nextCursor = "")
    (hR : fetchR GoContext.background none = ⟨Except.ok pageR, dR⟩)
    (hcR : pageR.nextCursor = "") :
    ListAllToolsM fetchT cctx (fuel + 1) =
      some (Except.ok (pageT.items.filterMap id), [⟨"ListAllTools", dT, false⟩],
        [⟨GoContext.background, none⟩]) ∧
    ListAllResourcesM fetchR cctx (fuel + 1) =
      some (Except.ok (pageR.items.filterMap id), [⟨"ListAllResources", dR, false⟩],
        [⟨GoContext.background, none⟩]) ∧
    (pageT.items = [] →
      ListAllToolsM fetchT cctx (fuel + 1) =
        some (Except.ok [], [⟨"ListAllTools", dT, false⟩],
          [⟨GoContext.background, none⟩])) := by
  have hloopT := listAllLoop_step_done fetchT fuel "" [] 0 [] pageT dT
    (by rw [cursorParam_empty]; exact hT) hcT
  have hloopR := listAllLoop_step_done fetchR fuel "" [] 0 [] pageR dR
    (by rw [cursorParam_empty]; exact hR) hcR
  have h1 : ListAllToolsM fetchT cctx (fuel + 1) =
      some (Except.ok (pageT.items.filterMap id), [⟨"ListAllTools", dT, false⟩],
        [⟨GoContext.background, none⟩]) := by
    rw [ListAllToolsM, hloopT]
    simp [goErrNonNil, cursorParam_empty]
  refine ⟨h1, ?_, ?_⟩
  · rw [ListAllResourcesM, hloopR]
    simp [goErrNonNil, cursorParam_empty]
  · intro hempty
    rw [h1, hempty]
    simp

/-- C10 witness: `c10Fetch` serves a single empty final page; both
aggregations succeed with the empty sequence after exactly one request. -/
theorem C10_single_page_witness :
    ListAllToolsM c10Fetch GoContext.background 1 =
      some (Except.ok [], [⟨"ListAllTools", 1, false⟩],
        [⟨GoContext.background, none⟩]) ∧
    ListAllResourcesM c10Fetch GoContext.background 1 =
      some (Except.ok [], [⟨"ListAllResources", 1, false⟩],
        [⟨GoContext.background, none⟩]) := by
  have h := C10_single_page c10Fetch c10Fetch GoContext.background ⟨[], ""⟩ ⟨[], ""⟩ 1 1 0
    rfl rfl rfl rfl
  exact ⟨h.1, h.2.1⟩

/-- A `ListAllTools` result exposes the underlying loop result with the same
request trace. -/
theorem ListAllToolsM_loop {α : Type} (fetch : GoContext → Option String → SessResult (Page α))
    (cctx : GoContext) (fuel : Nat)
    (r : Except String (List α)) (s : List Sample) (reqs : List PageRequest)
    (h : ListAllToolsM fetch cctx fuel = some (r, s, reqs)) :
    ∃ r0 d0, listAllLoop fetch fuel "" [] 0 [] = some (r0, d0, reqs) := by
  cases hl : listAllLoop fetch fuel "" [] 0 [] with
  | none =>
    rw [ListAllToolsM, hl] at h
    exact absurd h (by simp)
  | some trip =>
    obtain ⟨r0, d0, reqs0⟩ := trip
    rw [ListAllToolsM, hl] at h
    cases r0 with
    | error e =>
      simp only [Option.some.injEq, Prod.mk.injEq] at h
      refine ⟨Except.error e, d0, ?_⟩
      rw [← h.2.2]
    | ok items =>
      simp only [Option.some.injEq, Prod.mk.injEq] at h
      refine ⟨Except.ok items, d0, ?_⟩
      rw [← h.2.2]

/-- C6: the aggregation loop terminates exactly when a page fetch errors or
a page's `nextCursor` is empty — a terminating `ListAllTools` run's final
request hit one of those two events, either event ends the loop within one
step, and against a server whose every page carries a non-empty `nextCursor`
the loop exhausts any amount of fuel, `ListAllTools` never returning. -/
theorem C6_termination_exactly {α : Type}
    (fetch : GoContext → Option String → SessResult (Page α)) (cctx : GoContext) :
    (∀ fuel r s reqs, ListAllToolsM fetch cctx fuel = some (r, s, reqs) →
      ∃ rq, reqs.getLast? = some rq ∧
        ((∃ e, (fetch rq.ctx rq.cursor).value = Except.error e) ∨
         (∃ page, (fetch rq.ctx rq.cursor).value = Except.ok page ∧
           page.nextCursor = ""))) ∧
    (∀ cursor page d fuel acc t reqs,
      fetch GoContext.background (cursorParam cursor) = ⟨Except.ok page, d⟩ →
      page.nextCursor = "" →
      (listAllLoop fetch (fuel + 1) cursor acc t reqs).isSome = true) ∧
    (∀ cursor e d fuel acc t reqs,
      fetch GoContext.background (cursorParam cursor) = ⟨Except.error e, d⟩ →
      (listAllLoop fetch (fuel + 1) cursor acc t reqs).isSome = true) ∧
    ((∀ p, ∃ page, (fetch GoContext.background p).value = Except.ok page ∧
        page.nextCursor ≠ "") →
      ∀ fuel, ListAllToolsM fetch cctx fuel = none) := by
  refine ⟨?_, ?_, ?_, ?_⟩
  · intro fuel r s reqs h
    obtain ⟨r0, d0, hl⟩ := ListAllToolsM_loop fetch cctx fuel r s reqs h
    obtain ⟨rq, hlast, hcond⟩ := listAllLoop_last fetch fuel "" [] 0 [] r0 d0 reqs hl
    refine ⟨rq, hlast, ?_⟩
    rcases hcond with ⟨e, he, _⟩ | hok
    · exact Or.inl ⟨e, he⟩
    · exact Or.inr hok
  · intro cursor page d fuel acc t reqs hok hnc
    rw [listAllLoop_step_done fetch fuel cursor acc t reqs page d hok hnc]
    rfl
  · intro cursor e d fuel acc t reqs herr
    rw [listAllLoop_step_error fetch fuel cursor acc t reqs e d herr]
    rfl
  · intro H fuel
    rw [ListAllToolsM, listAllLoop_endless fetch H fuel "" [] 0 []]

/-- C6 witness: `endlessFetch` (always a non-empty cursor) makes
`ListAllTools` exhaust fuel 100 and return nothing, while `c10Fetch` (empty
cursor at once) terminates within one step. -/
theorem C6_termination_exactly_witness :
    ListAllToolsM endlessFetch GoContext.background 100 = none ∧
    (listAllLoop c10Fetch 1 "" [] 0 []).isSome = true := by
  have h1 := C6_termination_exactly endlessFetch GoContext.background
  have h2 := C6_termination_exactly c10Fetch GoContext.background
  refine ⟨h1.2.2.2 ?_ 100, h2.2.1 "" ⟨[], ""⟩ 1 0 [] 0 [] rfl rfl⟩
  intro p
  exact ⟨⟨[], "again"⟩, rfl, by decide⟩

/-- C8: in every terminating `ListAllTools` run, the first page request
carries no cursor field, no request ever carries an empty-string cursor
value, and a cursor field is attached to a later request only because the
previously returned `nextCursor` was non-empty (the trace is a `reqChain`
from the empty starting cursor). -/
theorem C8_cursor_invariant {α : Type}
    (fetch : GoContext → Option String → SessResult (Page α)) (cctx : GoContext)
    (fuel : Nat) (r : Except String (List α)) (s : List Sample) (reqs : List PageRequest)
    (h : ListAllToolsM fetch cctx fuel = some (r, s, reqs)) :
    reqs.head? = some ⟨GoContext.background, none⟩ ∧
    (∀ rq ∈ reqs, rq.cursor ≠ some "") ∧
    reqChain fetch "" reqs := by
  obtain ⟨hs, hhd, hinv, hchain⟩ := ListAllToolsM_inv fetch cctx fuel r s reqs h
  exact ⟨hhd, fun rq hrq => (hinv rq hrq).2, hchain⟩

/-- C8 witness: the request trace of the `c2Fetch` aggregation starts with a
cursorless request and chains through cursors A and B, never sending an
empty-string cursor. -/
theorem C8_cursor_invariant_witness :
    ([⟨GoContext.background, none⟩, ⟨GoContext.background, some "A"⟩,
      ⟨GoContext.background, some "B"⟩] : List PageRequest).head? =
        some ⟨GoContext.background, none⟩ ∧
    reqChain c2Fetch ""
      [⟨GoContext.background, none⟩, ⟨GoContext.background, some "A"⟩,
       ⟨GoContext.background, some "B"⟩] := by
  have h := C8_cursor_invariant c2Fetch GoContext.background 3 (Except.ok [1, 2, 3, 4])
    [⟨"ListAllTools", 3, false⟩]
    [⟨GoContext.background, none⟩, ⟨GoContext.background, some "A"⟩,
     ⟨GoContext.background, some "B"⟩] rfl
  exact ⟨h.1, h.2.2⟩

/-- Folding the env-append loop from a non-nil slice appends the formatted
entries. -/
theorem foldl_env_some (rest : List (String × String)) :
    ∀ l : List String,
      rest.foldl (fun env kv => some (env.getD [] ++ [kv.1 ++ "=" ++ kv.2])) (some l) =
        some (l ++ rest.map fun kv => kv.1 ++ "=" ++ kv.2) := by
  induction rest with
  | nil => intro l; simp
  | cons kv rest ih => intro l; simp [ih]

/-- C5 (code bug): with a non-empty environment-override map the launched
subprocess receives exactly the formatted override entries — the inherited
process environment is replaced, not extended — while with an empty map the
inherited environment is used.  (`exec.Command` leaves `cmd.Env` nil;
appending to nil yields a non-nil slice holding only the overrides, and a
non-nil `Env` replaces the inherited environment.) -/
theorem C5_env_replaced (parentEnv : List String) (cfg : ClientConfig)
    (kv : String × String) (rest : List (String × String))
    (henv : cfg.env = kv :: rest) :
    stdioChildEnv parentEnv cfg = (kv :: rest).map (fun p => p.1 ++ "=" ++ p.2) ∧
    ∀ cfg0 : ClientConfig, cfg0.env = [] → stdioChildEnv parentEnv cfg0 = parentEnv := by
  constructor
  · rw [stdioChildEnv, stdioCmdEnv, henv]
    simp [foldl_env_some, childProcessEnv]
  · intro cfg0 h0
    rw [stdioChildEnv, stdioCmdEnv, h0]
    rfl

/-- C5 witness: overriding `FOO=bar` under a parent environment holding only
`PATH=/usr/bin` launches the child with environment exactly `[FOO=bar]`:
`PATH` is gone. -/
theorem C5_env_replaced_witness :
    stdioChildEnv ["PATH=/usr/bin"] ⟨"srv", [], [("FOO", "bar")], false, "", ⟨""⟩⟩ =
      ["FOO=bar"] ∧
    "PATH=/usr/bin" ∉
      stdioChildEnv ["PATH=/usr/bin"] ⟨"srv", [], [("FOO", "bar")], false, "", ⟨""⟩⟩ := by
  have h := C5_env_replaced ["PATH=/usr/bin"] ⟨"srv", [], [("FOO", "bar")], false, "", ⟨""⟩⟩
    ("FOO", "bar") [] rfl
  have he : stdioChildEnv ["PATH=/usr/bin"] ⟨"srv", [], [("FOO", "bar")], false, "", ⟨""⟩⟩ =
      ["FOO=bar"] := by
    rw [h.1]
    decide
  refine ⟨he, ?_⟩
  rw [he]
  decide

/-- C7: with an empty bearer token `newk6HTTPClient` returns the plain
k6-configured client unchanged and requests go out with their headers
untouched (no Authorization header added); with a non-empty token it returns
the oauth2 wrapper around that same client, and every outgoing request
carries `Authorization: Bearer <token>` with exactly the configured token
while being delivered by the original client's transport (proxy, TLS and
dialer settings preserved). -/
theorem C7_bearer_token (st : VUState) (cfg : ClientConfig)
    (hdrs : List (String × String)) :
    (cfg.auth.bearerToken = "" →
      newk6HTTPClient (some st) cfg = GoHTTPClient.plain (k6Transport (some st)) ∧
      (newk6HTTPClient (some st) cfg).send hdrs = (hdrs, k6Transport (some st))) ∧
    (cfg.auth.bearerToken ≠ "" →
      newk6HTTPClient (some st) cfg =
        GoHTTPClient.oauth2Client cfg.auth.bearerToken
          (GoHTTPClient.plain (k6Transport (some st))) ∧
      (newk6HTTPClient (some st) cfg).send hdrs =
        (hdrs ++ [("Authorization", "Bearer " ++ cfg.auth.bearerToken)],
          k6Transport (some st))) := by
  constructor
  · intro hempty
    have hcl : newk6HTTPClient (some st) cfg = GoHTTPClient.plain (k6Transport (some st)) := by
      rw [newk6HTTPClient]
      simp [hempty]
    exact ⟨hcl, by rw [hcl]; rfl⟩
  · intro hne
    have hcl : newk6HTTPClient (some st) cfg =
        GoHTTPClient.oauth2Client cfg.auth.bearerToken
          (GoHTTPClient.plain (k6Transport (some st))) := by
      rw [newk6HTTPClient]
      simp [hne]
    exact ⟨hcl, by rw [hcl]; rfl⟩

/-- C7 witness: a concrete empty-token config is returned unchanged with
headers untouched, and a concrete `tok` config sends
`Authorization: Bearer tok` through the same k6 transport. -/
theorem C7_bearer_token_witness :
    (newk6HTTPClient (some ⟨none, false, false, false⟩)
      ⟨"", [], [], false, "http://s", ⟨""⟩⟩).send [("Accept", "application/json")] =
      ([("Accept", "application/json")], k6Transport (some ⟨none, false, false, false⟩)) ∧
    (newk6HTTPClient (some ⟨none, false, false, false⟩)
      ⟨"", [], [], false, "http://s", ⟨"tok"⟩⟩).send [("Accept", "application/json")] =
      ([("Accept", "application/json"), ("Authorization", "Bearer tok")],
        k6Transport (some ⟨none, false, false, false⟩)) := by
  have h1 := C7_bearer_token ⟨none, false, false, false⟩
    ⟨"", [], [], false, "http://s", ⟨""⟩⟩ [("Accept", "application/json")]
  have h2 := C7_bearer_token ⟨none, false, false, false⟩
    ⟨"", [], [], false, "http://s", ⟨"tok"⟩⟩ [("Accept", "application/json")]
  exact ⟨(h1.1 rfl).2, (h2.2 (by decide)).2⟩

/-- C1 counterexample: `Ping` and `ListTools` submit zero metrics
observations, not exactly one — for a concrete successful session call their
pushed sample lists are empty. -/
theorem C1_counterexample :
    (PingM (fun _ => ⟨Except.ok (), 5⟩) GoContext.background).2.length = 0 ∧
    (ListToolsM (fun _ => (⟨Except.ok 7, 5⟩ : SessResult Nat))
      GoContext.background).2.length = 0 := by
  exact ⟨rfl, rfl⟩

/-- C1 (amended): every facade operation except `Ping` and `ListTools`
submits exactly one metrics observation — tagged with the operation's name,
the measured wall-clock duration (for aggregations, the summed elapsed time
of all issued page requests) and whether an error occurred — regardless of
whether the call succeeds or fails; `Ping` and `ListTools` submit none. -/
theorem C1_amended_metrics {α : Type}
    (sPing : GoContext → SessResult Unit) (sess : GoContext → SessResult α)
    (fetchT fetchR fetchP : GoContext → Option String → SessResult (Page α))
    (cctx : GoContext) (fuel : Nat)
    (rT : Except String (List α)) (sT : List Sample) (reqsT : List PageRequest)
    (rR : Except String (List α)) (sR : List Sample) (reqsR : List PageRequest)
    (rP : Except String (List α)) (sP : List Sample) (reqsP : List PageRequest)
    (hT : ListAllToolsM fetchT cctx fuel = some (rT, sT, reqsT))
    (hR : ListAllResourcesM fetchR cctx fuel = some (rR, sR, reqsR))
    (hP : ListAllPromptsM fetchP cctx fuel = some (rP, sP, reqsP)) :
    (PingM sPing cctx).2 = [] ∧
    (ListToolsM sess cctx).2 = [] ∧
    (CallToolM sess cctx).2 =
      [⟨"CallTool", (sess cctx).elapsed, goErrNonNil (sess cctx).value⟩] ∧
    (ListResourcesM sess cctx).2 =
      [⟨"ListResources", (sess GoContext.background).elapsed,
        goErrNonNil (sess GoContext.background).value⟩] ∧
    (ReadResourceM sess cctx).2 =
      [⟨"ReadResource", (sess GoContext.background).elapsed,
        goErrNonNil (sess GoContext.background).value⟩] ∧
    (ListPromptsM sess cctx).2 =
      [⟨"ListPrompts", (sess GoContext.background).elapsed,
        goErrNonNil (sess GoContext.background).value⟩] ∧
    (GetPromptM sess cctx).2 =
      [⟨"GetPrompt", (sess GoContext.background).elapsed,
        goErrNonNil (sess GoContext.background).value⟩] ∧
    sT = [⟨"ListAllTools", (reqsT.map fun rq => (fetchT rq.ctx rq.cursor).elapsed).sum,
      goErrNonNil rT⟩] ∧
    sR = [⟨"ListAllResources", (reqsR.map fun rq => (fetchR rq.ctx rq.cursor).elapsed).sum,
      goErrNonNil rR⟩] ∧
    sP = [⟨"ListAllPrompts", (reqsP.map fun rq => (fetchP rq.ctx rq.cursor).elapsed).sum,
      goErrNonNil rP⟩] := by
  refine ⟨rfl, rfl, rfl, rfl, rfl, rfl, rfl, ?_, ?_, ?_⟩
  · exact (ListAllToolsM_inv fetchT cctx fuel rT sT reqsT hT).1
  · exact (ListAllResourcesM_inv fetchR cctx fuel rR sR reqsR hR).1
  · exact (ListAllPromptsM_inv fetchP cctx fuel rP sP reqsP hP).1

/-- C1 amended witness: a failing `CallTool` still pushes its one sample
with the error flag set, a successful ping pushes none, and the aggregated
`c10Fetch` run pushes its one `ListAllTools` sample. -/
theorem C1_amended_metrics_witness :
    (PingM (fun _ => ⟨Except.ok (), 1⟩) GoContext.background).2 = [] ∧
    (CallToolM (fun _ => (⟨Except.error "boom", 2⟩ : SessResult Nat))
      GoContext.background).2 = [⟨"CallTool", 2, true⟩] ∧
    ([⟨"ListAllTools", 1, false⟩] : List Sample) =
      [⟨"ListAllTools",
        (([⟨GoContext.background, none⟩] : List PageRequest).map
          fun rq => (c10Fetch rq.ctx rq.cursor).elapsed).sum,
        goErrNonNil (Except.ok ([] : List Nat))⟩] := by
  have h := C1_amended_metrics (fun _ => ⟨Except.ok (), 1⟩)
    (fun _ => (⟨Except.error "boom", 2⟩ : SessResult Nat))
    c10Fetch c10Fetch c10Fetch GoContext.background 1
    (Except.ok []) [⟨"ListAllTools", 1, false⟩] [⟨GoContext.background, none⟩]
    (Except.ok []) [⟨"ListAllResources", 1, false⟩] [⟨GoContext.background, none⟩]
    (Except.ok []) [⟨"ListAllPrompts", 1, false⟩] [⟨GoContext.background, none⟩]
    rfl rfl rfl
  exact ⟨h.1, h.2.2.1, h.2.2.2.2.2.2.2.1⟩

/-- C4 counterexample: with the facade's bound context cancelled and a
session that fails every call carrying a cancelled context, `ListAllTools`
still issues two page requests — both with the background context — and
succeeds: cancelling the bound context neither makes the aggregation fail
nor stops its page requests. -/
theorem C4_counterexample :
    (GoContext.cancelable true).isCancelled = true ∧
    (c4Fetch (GoContext.cancelable true) none).value =
      Except.error "context canceled" ∧
    ListAllToolsM c4Fetch (GoContext.cancelable true) 2 =
      some (Except.ok [1, 2], [⟨"ListAllTools", 2, false⟩],
        [⟨GoContext.background, none⟩, ⟨GoContext.background, some "next"⟩]) := by
  exact ⟨rfl, rfl, rfl⟩

/-- C4 (amended): only `CallTool` issues its session call with the facade's
bound context, so a session that honours cancellation makes `CallTool` fail
with the cancellation error once that context is cancelled; every other
single-call operation, and every page request of the list-all aggregations,
is issued with `context.Background()` and is therefore unaffected by
cancelling the facade's bound context. -/
theorem C4_amended_context_use {α : Type}
    (sess : GoContext → SessResult α)
    (fetchT fetchR fetchP : GoContext → Option String → SessResult (Page α))
    (cctx : GoContext) (fuel : Nat)
    (rT : Except String (List α)) (sT : List Sample) (reqsT : List PageRequest)
    (rR : Except String (List α)) (sR : List Sample) (reqsR : List PageRequest)
    (rP : Except String (List α)) (sP : List Sample) (reqsP : List PageRequest)
    (hT : ListAllToolsM fetchT cctx fuel = some (rT, sT, reqsT))
    (hR : ListAllResourcesM fetchR cctx fuel = some (rR, sR, reqsR))
    (hP : ListAllPromptsM fetchP cctx fuel = some (rP, sP, reqsP))
    (dc : Nat)
    (hcancel : sess cctx = ⟨Except.error "context canceled", dc⟩) :
    (CallToolM sess cctx).1 = Except.error "context canceled" ∧
    (ListToolsM sess cctx).1 = (sess GoContext.background).value ∧
    (ListResourcesM sess cctx).1 = (sess GoContext.background).value ∧
    (ReadResourceM sess cctx).1 = (sess GoContext.background).value ∧
    (ListPromptsM sess cctx).1 = (sess GoContext.background).value ∧
    (GetPromptM sess cctx).1 = (sess GoContext.background).value ∧
    (∀ rq ∈ reqsT, rq.ctx = GoContext.background) ∧
    (∀ rq ∈ reqsR, rq.ctx = GoContext.background) ∧
    (∀ rq ∈ reqsP, rq.ctx = GoContext.background) := by
  refine ⟨?_, rfl, rfl, rfl, rfl, rfl, ?_, ?_, ?_⟩
  · show (sess cctx).value = _
    rw [hcancel]
  · intro rq hrq
    exact ((ListAllToolsM_inv fetchT cctx fuel rT sT reqsT hT).2.2.1 rq hrq).1
  · intro rq hrq
    exact ((ListAllResourcesM_inv fetchR cctx fuel rR sR reqsR hR).2.2.1 rq hrq).1
  · intro rq hrq
    exact ((ListAllPromptsM_inv fetchP cctx fuel rP sP reqsP hP).2.2.1 rq hrq).1

/-- C4 amended witness: with the bound context cancelled, the
cancellation-honouring session makes `CallTool` fail with the cancellation
error while `ListTools` (issued on the background context) still succeeds. -/
theorem C4_amended_context_use_witness :
    (CallToolM c4Sess (GoContext.cancelable true)).1 =
      Except.error "context canceled" ∧
    (ListToolsM c4Sess (GoContext.cancelable true)).1 = Except.ok 1 := by
  have h := C4_amended_context_use c4Sess c4Fetch c4Fetch c4Fetch
    (GoContext.cancelable true) 2
    (Except.ok [1, 2]) [⟨"ListAllTools", 2, false⟩]
    [⟨GoContext.background, none⟩, ⟨GoContext.background, some "next"⟩]
    (Except.ok [1, 2]) [⟨"ListAllResources", 2, false⟩]
    [⟨GoContext.background, none⟩, ⟨GoContext.background, some "next"⟩]
    (Except.ok [1, 2]) [⟨"ListAllPrompts", 2, false⟩]
    [⟨GoContext.background, none⟩, ⟨GoContext.background, some "next"⟩]
    rfl rfl rfl 0 rfl
  exact ⟨h.1, h.2.1⟩

end XK6MCP
